import Mathlib

/-!
# Verification of the TBufferSQL2 object-to-SQL serialization engine

Shallow embedding of `src/io/sql/src/TBufferSQL2.cxx` (class `TBufferSQL2`):
the run-length array compression (`SQLWriteArrayCompress`, `SQLReadArrayCompress`,
`SQLWriteArrayNoncompress`, `SQLReadArrayUncompress`), the object write/read path
(`SqlWriteObject`, `SqlReadObject`), the per-class data pool (`SqlObjectData`),
the value codec entry points (`SqlWriteValue`, `SqlReadValue`, `SqlReadBasic`),
the character-array special case (`WriteFastArray(const Char_t*, Int_t)`,
`ReadFastArray(Char_t*, Int_t)`), and the structure stack (`PushStack`, `PopStack`).

Machine integers (`Int_t`, `Long64_t`) are modelled as `Int`; the textual value
codec stores the numeric payload directly (the `snprintf`/`sscanf` decimal
round-trip is the identity on the modelled range).  External collaborators
(`TSQLFile`, `TSQLObjectData`, reflection) are modelled as explicit parameters
or small data structures; observable side effects (structure nodes emitted,
streamer invocations, bulk fetches issued, diagnostic messages) are recorded in
explicit logs on the buffer state.
-/

/-- Type-marker strings of the `sqlio` namespace used to tag every persisted
value (`sqlio::Int`, `sqlio::Bool`, `sqlio::CharStar`, `sqlio::ObjectPtr`, ...). -/
inductive Marker where
  | char
  | short
  | int
  | long
  | long64
  | bool
  | charStar
  | objectPtr
  | objectRef
  | objectInst
  | version
  | array
  deriving DecidableEq, Repr

/-- One stored value item of a `TSQLObjectData` cursor: the type marker under
which it was written, its numeric payload, and whether its textual form is a
non-empty parseable string (`valid = false` models a null/empty value string). -/
structure DItem where
  marker : Marker
  value : Int
  valid : Bool
  deriving DecidableEq, Repr

/-- Model of a `TSQLObjectData` cursor: whether it serves blob (raw) data and
the remaining sequence of value items, consumed front to back. -/
structure TSQLObjectData where
  isBlob : Bool
  items : List DItem
  deriving DecidableEq, Repr

/-- `TSQLObjectData::GetValue`: numeric payload of the current item (0 on
exhausted data). -/
def TSQLObjectData.getValue (d : TSQLObjectData) : Int :=
  match d.items with
  | [] => 0
  | i :: _ => i.value

/-- `TSQLObjectData::ShiftToNextValue`: advance the cursor by one item. -/
def TSQLObjectData.shiftToNextValue (d : TSQLObjectData) : TSQLObjectData :=
  { d with items := d.items.drop 1 }

/-- Modelled from the spec: `TSQLObjectData::VerifyDataType` (class not under
`src/`) checks that the type marker stored with the current value equals the
expected marker; on exhausted data there is no marker to match. -/
def TSQLObjectData.verifyDataType (d : TSQLObjectData) (tname : Marker) : Bool :=
  match d.items with
  | [] => false
  | i :: _ => i.marker == tname

/-- Structure-tree node events emitted by the write path:
`TSQLStructure::SetObjectPointer` (a back-reference to an already written
object) and `TSQLStructure::SetObjectRef` (a fresh Object node carrying the
declared class). -/
inductive SqlNode where
  | objectPtr (objid : Int)
  | objectRef (objid : Int) (cl : Nat)
  deriving DecidableEq, Repr

/-- Model of `TSQLClassInfo`: a per-(class,version) table descriptor, with the
flag telling whether a column-wise class table exists for it. -/
structure TSQLClassInfo where
  infoId : Nat
  classTableExist : Bool
  deriving DecidableEq, Repr

/-- Model of `TSQLObjectDataPool`: the cached bulk-fetch result for one class
table descriptor (`GetSqlInfo` returns the descriptor it was created for). -/
structure TSQLObjectDataPool where
  sqlinfo : Nat
  deriving DecidableEq, Repr

/-- State of one `TBufferSQL2` instance (one serialize/deserialize pass).
Fields keep the source names.  The trailing fields are observation logs that
make side effects of the C++ code explicit: structure nodes emitted, addresses
on which the streamer (describe-callback) was invoked, bulk fetches issued via
`GetNormalClassDataAll`, diagnostic messages issued via `Error`, object ids
passed to `SqlReadObjectDirect`, and values written via `SqlWriteValue`. -/
structure TBufferSQL2 where
  fErrorFlag : Nat
  fExpectedChain : Bool
  fCompressLevel : Int
  fIgnoreVerification : Bool
  fCurrentData : Option TSQLObjectData
  fObjMap : List (Int × Int)
  fObjIdCounter : Int
  fFirstObjId : Int
  fLastObjId : Int
  fPoolsMap : List (Nat × TSQLObjectDataPool)
  fStk : List Nat
  fNodes : List SqlNode
  fStreamedOn : List Int
  fFetchLog : List (Int × Int × Nat)
  fDiagnostics : List String
  fDirectReads : List Int
  fWritten : List DItem

/-- `TExMap::GetValue`: association lookup returning 0 when the key is absent
(the map never stores value 0 for a present key on the paths modelled here). -/
def exMapGetValue (m : List (Int × Int)) (key : Int) : Int :=
  match m.find? (fun p => p.1 == key) with
  | some p => p.2
  | none => 0

/-! ## Object write path (`SqlWriteObject`) -/

/-- `TBufferSQL2::SqlWriteObject(obj, cl, ...)`.  `obj0` is the object address
(0 = null pointer), `cl` the declared class (none = null class pointer).  The
`PushStack`/`PopStack` bracket encloses the node construction; the node set on
the stack frame is recorded in `fNodes`.  The streamer (describe-callback)
invocation is recorded in `fStreamedOn`; its own nested writes re-enter this
function and are modelled as subsequent calls of the pass. -/
def sqlWriteObject (st : TBufferSQL2) (obj0 : Int) (cl : Option Nat) :
    Int × TBufferSQL2 :=
  let obj := if cl = none then 0 else obj0
  let objid : Int :=
    if obj = 0 then 0
    else
      let value := exMapGetValue st.fObjMap obj
      if 0 < value then st.fFirstObjId + value - 1 else -1
  if 0 ≤ objid then
    (objid, { st with fNodes := st.fNodes ++ [SqlNode.objectPtr objid] })
  else
    let objid := st.fObjIdCounter
    let st1 := { st with
      fObjIdCounter := st.fObjIdCounter + 1,
      fNodes := st.fNodes ++ [SqlNode.objectRef objid (cl.getD 0)] }
    let st2 :=
      if exMapGetValue st1.fObjMap obj = 0 then
        { st1 with fObjMap := (obj, objid - st1.fFirstObjId + 1) :: st1.fObjMap }
      else st1
    (objid, { st2 with fStreamedOn := st2.fStreamedOn ++ [obj] })

/-- `TBufferSQL2::SqlWriteAny` pass initialisation: reset the error flag and
seed both the first object id and the id counter with the caller's base id. -/
def sqlWriteAnyInit (objid : Int) : TBufferSQL2 :=
  { fErrorFlag := 0
    fExpectedChain := false
    fCompressLevel := 0
    fIgnoreVerification := false
    fCurrentData := none
    fObjMap := []
    fObjIdCounter := objid
    fFirstObjId := objid
    fLastObjId := objid
    fPoolsMap := []
    fStk := []
    fNodes := []
    fStreamedOn := []
    fFetchLog := []
    fDiagnostics := []
    fDirectReads := []
    fWritten := [] }

/-- Invariant of the write-side identity map: the base id is non-negative and
never exceeds the id counter, all stored values are positive and below the id
counter's offset, and distinct addresses hold distinct values (so distinct
addresses resolve to distinct object ids). -/
def objMapInv (st : TBufferSQL2) : Prop :=
  0 ≤ st.fFirstObjId ∧ st.fFirstObjId ≤ st.fObjIdCounter ∧
  (∀ p ∈ st.fObjMap, 0 < p.2 ∧ st.fFirstObjId + p.2 - 1 < st.fObjIdCounter) ∧
  st.fObjMap.Pairwise (fun p q => p.1 ≠ q.1 ∧ p.2 ≠ q.2)

theorem exMapGetValue_cons_self (k v : Int) (m : List (Int × Int)) :
    exMapGetValue ((k, v) :: m) k = v := by
  simp [exMapGetValue]

theorem exMapGetValue_cons_ne (a w k : Int) (m : List (Int × Int)) (h : k ≠ a) :
    exMapGetValue ((a, w) :: m) k = exMapGetValue m k := by
  simp only [exMapGetValue, List.find?]
  rw [show ((a, w).1 == k) = false by simpa using fun hh => h hh.symm]

theorem exMapGetValue_mem (m : List (Int × Int)) (k : Int)
    (h : exMapGetValue m k ≠ 0) : (k, exMapGetValue m k) ∈ m := by
  cases hres : m.find? (fun p => p.1 == k) with
  | none =>
    exfalso
    apply h
    unfold exMapGetValue
    rw [hres]
  | some p =>
    have hval : exMapGetValue m k = p.2 := by
      unfold exMapGetValue
      rw [hres]
    have hmem := List.mem_of_find?_eq_some hres
    have hkey : p.1 = k := by simpa using List.find?_some hres
    rw [hval, ← hkey]
    exact hmem

theorem exMapGetValue_not_mem (m : List (Int × Int)) (k : Int)
    (hpos : ∀ p ∈ m, 0 < p.2) (h : exMapGetValue m k = 0) :
    ∀ w, (k, w) ∉ m := by
  intro w hmem
  cases hres : m.find? (fun p => p.1 == k) with
  | none =>
    have hsome : (m.find? (fun p => p.1 == k)).isSome := by
      rw [List.find?_isSome]
      exact ⟨(k, w), hmem, by simp⟩
    rw [hres] at hsome
    simp at hsome
  | some p =>
    have hval : exMapGetValue m k = p.2 := by
      unfold exMapGetValue
      rw [hres]
    have := hpos p (List.mem_of_find?_eq_some hres)
    omega


/-- Operational summary of one `SqlWriteObject` call on a non-null object with
a non-null class: the invariant is preserved, the returned id lies in
`[fFirstObjId, fObjIdCounter)` of the post state, the address now maps to the
returned id, other addresses are untouched, and an already-known address takes
the pointer-alias branch: same id as before, one `objectPtr` node, no streamer
invocation, nothing else changed. -/
theorem sqlWriteObject_spec (st : TBufferSQL2) (hinv : objMapInv st)
    (obj : Int) (c : Nat) (hobj : obj ≠ 0) :
    objMapInv (sqlWriteObject st obj (some c)).2 ∧
    st.fFirstObjId ≤ (sqlWriteObject st obj (some c)).1 ∧
    (sqlWriteObject st obj (some c)).1 < (sqlWriteObject st obj (some c)).2.fObjIdCounter ∧
    (sqlWriteObject st obj (some c)).2.fFirstObjId = st.fFirstObjId ∧
    exMapGetValue (sqlWriteObject st obj (some c)).2.fObjMap obj
      = (sqlWriteObject st obj (some c)).1 - st.fFirstObjId + 1 ∧
    (∀ k, k ≠ obj → exMapGetValue (sqlWriteObject st obj (some c)).2.fObjMap k
      = exMapGetValue st.fObjMap k) ∧
    (0 < exMapGetValue st.fObjMap obj →
      (sqlWriteObject st obj (some c)).1
          = st.fFirstObjId + exMapGetValue st.fObjMap obj - 1 ∧
      (sqlWriteObject st obj (some c)).2
          = { st with fNodes := st.fNodes
                ++ [SqlNode.objectPtr (sqlWriteObject st obj (some c)).1] }) := by
  obtain ⟨hfirst0, hfc, hentries, hpair⟩ := hinv
  by_cases hv : 0 < exMapGetValue st.fObjMap obj
  · have hmem := exMapGetValue_mem st.fObjMap obj (by omega)
    have hlt := (hentries _ hmem).2
    have hpos := (hentries _ hmem).1
    have h0 : (0 : Int) ≤ st.fFirstObjId + exMapGetValue st.fObjMap obj - 1 := by
      omega
    have heq : sqlWriteObject st obj (some c)
        = (st.fFirstObjId + exMapGetValue st.fObjMap obj - 1,
           { st with fNodes := st.fNodes ++ [SqlNode.objectPtr
               (st.fFirstObjId + exMapGetValue st.fObjMap obj - 1)] }) := by
      simp [sqlWriteObject, hobj, hv, h0]
    have hid : (sqlWriteObject st obj (some c)).1
        = st.fFirstObjId + exMapGetValue st.fObjMap obj - 1 := by rw [heq]
    have hcounter : (sqlWriteObject st obj (some c)).2.fObjIdCounter
        = st.fObjIdCounter := by rw [heq]
    have hfirst : (sqlWriteObject st obj (some c)).2.fFirstObjId
        = st.fFirstObjId := by rw [heq]
    have hmapf : (sqlWriteObject st obj (some c)).2.fObjMap = st.fObjMap := by rw [heq]
    refine ⟨⟨?_, ?_, ?_, ?_⟩, ?_, ?_, hfirst, ?_, ?_, ?_⟩
    · rw [hfirst]
      exact hfirst0
    · rw [hfirst, hcounter]
      exact hfc
    · rw [hfirst, hcounter, hmapf]
      exact hentries
    · rw [hmapf]
      exact hpair
    · rw [hid]
      omega
    · rw [hid, hcounter]
      omega
    · rw [hmapf, hid]
      omega
    · intro k _
      rw [hmapf]
    · intro _
      refine ⟨hid, ?_⟩
      rw [hid, heq]
  · have hv0 : exMapGetValue st.fObjMap obj = 0 := by
      by_contra hne
      have hp1 := (hentries _ (exMapGetValue_mem st.fObjMap obj hne)).1
      simp only at hp1
      omega
    have heq : sqlWriteObject st obj (some c)
        = (st.fObjIdCounter,
           { st with
              fObjIdCounter := st.fObjIdCounter + 1,
              fNodes := st.fNodes ++ [SqlNode.objectRef st.fObjIdCounter c],
              fObjMap := (obj, st.fObjIdCounter - st.fFirstObjId + 1) :: st.fObjMap,
              fStreamedOn := st.fStreamedOn ++ [obj] }) := by
      have hneg : ¬ (0 : Int) ≤ -1 := by omega
      simp [sqlWriteObject, hobj, hv0, hneg]
    have hid : (sqlWriteObject st obj (some c)).1 = st.fObjIdCounter := by rw [heq]
    have hcounter : (sqlWriteObject st obj (some c)).2.fObjIdCounter
        = st.fObjIdCounter + 1 := by rw [heq]
    have hfirst : (sqlWriteObject st obj (some c)).2.fFirstObjId
        = st.fFirstObjId := by rw [heq]
    have hmapf : (sqlWriteObject st obj (some c)).2.fObjMap
        = (obj, st.fObjIdCounter - st.fFirstObjId + 1) :: st.fObjMap := by rw [heq]
    have hnotmem := exMapGetValue_not_mem st.fObjMap obj
      (fun p hp => (hentries p hp).1) hv0
    refine ⟨⟨?_, ?_, ?_, ?_⟩, ?_, ?_, hfirst, ?_, ?_, ?_⟩
    · rw [hfirst]
      exact hfirst0
    · rw [hfirst, hcounter]
      omega
    · rw [hfirst, hcounter, hmapf]
      intro p hp
      simp only [List.mem_cons] at hp
      rcases hp with rfl | hp
      · exact ⟨(by omega : (0 : Int) < st.fObjIdCounter - st.fFirstObjId + 1),
          (by omega : st.fFirstObjId + (st.fObjIdCounter - st.fFirstObjId + 1) - 1
            < st.fObjIdCounter + 1)⟩
      · have := hentries p hp
        omega
    · rw [hmapf, List.pairwise_cons]
      refine ⟨?_, hpair⟩
      intro q hq
      have hqe := hentries q hq
      constructor
      · intro hcontra
        have hko : obj = q.1 := hcontra
        apply hnotmem q.2
        rw [hko]
        simpa using hq
      · exact (by omega : st.fObjIdCounter - st.fFirstObjId + 1 ≠ q.2)
    · rw [hid]
      exact hfc
    · rw [hid, hcounter]
      omega
    · rw [hmapf, hid, exMapGetValue_cons_self]
    · intro k hk
      rw [hmapf, exMapGetValue_cons_ne _ _ _ _ hk]
    · intro hcontra
      omega

/-! ## Array run-length compression (`SQLWriteArrayCompress` and friends) -/

/-- The inner `while` of `SQLWriteArrayCompress`: starting from `indx`, advance
past all elements equal to `vname[curr]`, returning the first index past the
run (or `vname.length`). -/
def runEnd (vname : List Int) (curr : Nat) (indx : Nat) : Nat :=
  if h : indx < vname.length ∧ vname.getD indx 0 = vname.getD curr 0 then
    runEnd vname curr (indx + 1)
  else indx
termination_by vname.length - indx

theorem runEnd_ge (vname : List Int) (curr indx : Nat) : indx ≤ runEnd vname curr indx := by
  rw [runEnd]
  split
  · exact le_trans (Nat.le_succ indx) (runEnd_ge vname curr (indx + 1))
  · exact le_refl indx
termination_by vname.length - indx

theorem runEnd_le (vname : List Int) (curr indx : Nat) (h : indx ≤ vname.length) :
    runEnd vname curr indx ≤ vname.length := by
  rw [runEnd]
  split
  · next hc => exact runEnd_le vname curr (indx + 1) hc.1
  · exact h
termination_by vname.length - indx

/-- Every index swept over by `runEnd` holds the run's value. -/
theorem runEnd_eq_val (vname : List Int) (curr indx k : Nat)
    (hk1 : indx ≤ k) (hk2 : k < runEnd vname curr indx) :
    vname.getD k 0 = vname.getD curr 0 := by
  rw [runEnd] at hk2
  split at hk2
  · next hc =>
    rcases Nat.eq_or_lt_of_le hk1 with rfl | hlt
    · exact hc.2
    · exact runEnd_eq_val vname curr (indx + 1) k hlt hk2
  · omega
termination_by vname.length - indx

/-- `SQLWriteArrayCompress`, as a function of the scan index: emit, for each
maximal run of equal consecutive values, the triple
(first element's value, run start index, run length). -/
def sqlWriteArrayCompressGo (vname : List Int) (indx : Nat) : List (Int × Nat × Nat) :=
  if h : indx < vname.length then
    let j := runEnd vname indx (indx + 1)
    (vname.getD indx 0, indx, j - indx) :: sqlWriteArrayCompressGo vname j
  else []
termination_by vname.length - indx
decreasing_by
  have := runEnd_ge vname indx (indx + 1)
  omega

/-- `SQLWriteArrayCompress`: one run per maximal span of equal consecutive
values, each recorded as (value, start index, length) via
`SqlWriteBasic(vname[curr])` and `Stack()->ChildArrayIndex(curr, indx-curr)`. -/
def sqlWriteArrayCompress (vname : List Int) : List (Int × Nat × Nat) :=
  sqlWriteArrayCompressGo vname 0

/-- `SQLWriteArrayNoncompress`: one value per index, each with run length 1. -/
def sqlWriteArrayNoncompress (vname : List Int) : List (Int × Nat × Nat) :=
  (List.range vname.length).map (fun indx => (vname.getD indx 0, indx, 1))

/-- `SQLWriteArrayContent`: dispatch on the compression level
(`fCompressLevel > 0` selects the run-length encoder). -/
def sqlWriteArrayContent (compressLevel : Int) (vname : List Int) : List (Int × Nat × Nat) :=
  if 0 < compressLevel then sqlWriteArrayCompress vname
  else sqlWriteArrayNoncompress vname

/-- A parsed run index-range tag: `sscanf(name, "[%d..%d", &first, &last)` for a
tag with the `..` separator, and `sscanf(name, "[%d", &first)` with
`last = first` otherwise; `value` is the run's stored first element. -/
structure ArrRun where
  first : Int
  last : Int
  value : Int
  deriving DecidableEq, Repr

/-- Modelled from the spec: the textual index-range tag `"[first..last]"` (or
`"[first]"` for a length-1 run) that `TSQLStructure` (not under `src/`) renders
for a run written as `ChildArrayIndex(start, len)` covers indices
`start .. start+len-1`. -/
def runTag (r : Int × Nat × Nat) : ArrRun :=
  { first := (r.2.1 : Int), last := (r.2.1 : Int) + (r.2.2 : Int) - 1, value := r.1 }

/-- The write loop of `SQLReadArrayCompress` assigning one run:
`SqlReadBasic(vname[indx])` then `while (indx<=last) vname[indx++] = vname[first]`,
i.e. positions `first, first+1, ..., first+cnt-1` all receive the run value. -/
def setRange (arr : List (Option Int)) (v : Int) (first : Nat) (cnt : Nat) : List (Option Int) :=
  match cnt with
  | 0 => arr
  | k + 1 => setRange (arr.set first (some v)) v (first + 1) k

/-- `SQLReadArrayCompress` as a function of the cursor index: each run's tag
must start exactly at the expected index, satisfy `first ≤ last`, and end
within bounds (`last < arrsize`); any violation sets the error flag (second
component `true`) and halts, leaving the remaining elements unassigned. -/
def sqlReadArrayCompressGo (runs : List ArrRun) (arrsize : Nat) (indx : Nat)
    (vname : List (Option Int)) : List (Option Int) × Bool :=
  if h : indx < arrsize then
    match runs with
    | [] => (vname, true)
    | r :: rest =>
      if hv : r.first ≠ (indx : Int) ∨ r.last < r.first ∨ (arrsize : Int) ≤ r.last then
        (vname, true)
      else
        sqlReadArrayCompressGo rest arrsize (r.last.toNat + 1)
          (setRange vname r.value indx (r.last.toNat + 1 - indx))
  else (vname, false)
termination_by arrsize - indx
decreasing_by
  push_neg at hv
  omega

/-- `SQLReadArrayCompress` over a fresh array of `arrsize` unassigned cells. -/
def sqlReadArrayCompress (runs : List ArrRun) (arrsize : Nat) : List (Option Int) × Bool :=
  sqlReadArrayCompressGo runs arrsize 0 (List.replicate arrsize none)

/-- `SQLReadArrayUncompress`: positional 1:1 read of `arrsize` values. -/
def sqlReadArrayUncompress (values : List Int) (arrsize : Nat) : List Int :=
  (List.range arrsize).map (fun indx => values.getD indx 0)

theorem setRange_length (arr : List (Option Int)) (v : Int) (first cnt : Nat) :
    (setRange arr v first cnt).length = arr.length := by
  induction cnt generalizing arr first with
  | zero => rfl
  | succ k ih => simp [setRange, ih]

theorem setRange_getD (arr : List (Option Int)) (v : Int) (first cnt j : Nat) :
    (setRange arr v first cnt).getD j none =
      if first ≤ j ∧ j < first + cnt ∧ j < arr.length then some v else arr.getD j none := by
  induction cnt generalizing arr first with
  | zero =>
    simp only [setRange]
    rw [if_neg (by omega)]
  | succ k ih =>
    simp only [setRange]
    rw [ih]
    simp only [List.length_set]
    by_cases hfj : first = j
    · subst hfj
      rw [if_neg (by omega)]
      by_cases hlen : first < arr.length
      · rw [if_pos (by omega)]
        rw [List.getD_eq_getElem?_getD, List.getElem?_set_eq_of_lt _ hlen]
        rfl
      · rw [if_neg (by omega)]
        rw [List.set_eq_of_length_le (by omega)]
    · rw [List.getD_eq_getElem?_getD (arr.set first (some v)), List.getElem?_set_ne hfj,
        ← List.getD_eq_getElem?_getD]
      by_cases hcond : first ≤ j ∧ j < first + (k + 1) ∧ j < arr.length
      · rw [if_pos (by omega), if_pos hcond]
      · rw [if_neg (by omega), if_neg hcond]

/-- Key round-trip lemma: decoding the tags of the runs emitted from scan
position `indx` overwrites exactly the positions from `indx` on with the
original array values, and reports no error. -/
theorem sqlRead_sqlWrite_compressGo (a : List Int) (indx : Nat) (acc : List (Option Int))
    (hlen : acc.length = a.length) :
    (sqlReadArrayCompressGo ((sqlWriteArrayCompressGo a indx).map runTag) a.length indx acc).2
        = false ∧
    (sqlReadArrayCompressGo ((sqlWriteArrayCompressGo a indx).map runTag) a.length indx acc).1.length
        = a.length ∧
    ∀ j, j < a.length →
      (sqlReadArrayCompressGo ((sqlWriteArrayCompressGo a indx).map runTag) a.length indx acc).1.getD
          j none
        = if j < indx then acc.getD j none else some (a.getD j 0) := by
  by_cases h : indx < a.length
  · have hj1 : indx + 1 ≤ runEnd a indx (indx + 1) := runEnd_ge a indx (indx + 1)
    have hj2 : runEnd a indx (indx + 1) ≤ a.length := runEnd_le a indx (indx + 1) (by omega)
    set j0 := runEnd a indx (indx + 1) with hj0
    rw [sqlWriteArrayCompressGo, dif_pos h]
    simp only [List.map_cons]
    rw [sqlReadArrayCompressGo, dif_pos h]
    rw [dif_neg (by simp only [runTag]; push_neg; exact ⟨rfl, by omega, by omega⟩)]
    have htoNat : ((runTag (a.getD indx 0, indx, j0 - indx)).last).toNat + 1 = j0 := by
      simp only [runTag]
      omega
    rw [htoNat]
    have hlen2 :
        (setRange acc ((runTag (a.getD indx 0, indx, j0 - indx)).value) indx
          (j0 - indx)).length = a.length := by
      rw [setRange_length, hlen]
    have ih := sqlRead_sqlWrite_compressGo a j0
      (setRange acc ((runTag (a.getD indx 0, indx, j0 - indx)).value) indx (j0 - indx)) hlen2
    refine ⟨ih.1, ih.2.1, ?_⟩
    intro j hja
    rw [ih.2.2 j hja]
    simp only [runTag]
    rw [setRange_getD, hlen]
    split_ifs with h1 h2 h3
    any_goals rfl
    any_goals (exfalso; omega)
    congr 1
    rcases Nat.eq_or_lt_of_le (h2.1) with heq | hlt
    · rw [heq]
    · exact (runEnd_eq_val a indx (indx + 1) j hlt h1).symm
  · rw [sqlWriteArrayCompressGo, dif_neg h]
    simp only [List.map_nil]
    rw [sqlReadArrayCompressGo, dif_neg h]
    refine ⟨rfl, hlen, ?_⟩
    intro j hja
    rw [if_pos (by omega)]
termination_by a.length - indx
decreasing_by
  omega

/-- Full-array corollary: reading back the tagged runs of a compressed write
reconstructs exactly the original array, with no error flagged. -/
theorem sqlReadArrayCompress_roundtrip (a : List Int) :
    sqlReadArrayCompress ((sqlWriteArrayCompress a).map runTag) a.length
      = (a.map some, false) := by
  have base : (List.replicate a.length (none : Option Int)).length = a.length := by
    simp
  have main := sqlRead_sqlWrite_compressGo a 0 (List.replicate a.length none) base
  have hres : (sqlReadArrayCompressGo ((sqlWriteArrayCompressGo a 0).map runTag) a.length 0
      (List.replicate a.length none)).1 = a.map some := by
    apply List.ext_getElem
    · rw [main.2.1, List.length_map]
    · intro i h1 h2
      have hi : i < a.length := by simpa using h2
      have := main.2.2 i hi
      rw [if_neg (by omega)] at this
      rw [List.getD_eq_getElem?_getD, List.getElem?_eq_getElem h1] at this
      have ha : a.getD i 0 = a[i] := by
        rw [List.getD_eq_getElem?_getD, List.getElem?_eq_getElem hi]
        rfl
      rw [ha] at this
      simp only [Option.getD_some] at this
      rw [this]
      simp [hi]
  rw [sqlReadArrayCompress, sqlWriteArrayCompress]
  have hpair : (sqlReadArrayCompressGo ((sqlWriteArrayCompressGo a 0).map runTag) a.length 0
      (List.replicate a.length none))
      = ((sqlReadArrayCompressGo ((sqlWriteArrayCompressGo a 0).map runTag) a.length 0
          (List.replicate a.length none)).1,
         (sqlReadArrayCompressGo ((sqlWriteArrayCompressGo a 0).map runTag) a.length 0
          (List.replicate a.length none)).2) := rfl
  rw [hpair, hres, main.1]

theorem map_range_getD {α : Type} (f : Nat → α) (n i : Nat) (h : i < n) (d : α) :
    ((List.range n).map f).getD i d = f i := by
  rw [List.getD_eq_getElem?_getD,
    List.getElem?_eq_getElem (by simpa using h)]
  simp

theorem map_range_getD_self (a : List Int) :
    (List.range a.length).map (fun i => a.getD i 0) = a := by
  apply List.ext_getElem
  · simp
  · intro i h1 h2
    have hi : i < a.length := by simpa using h1
    rw [List.getElem_map, List.getElem_range]
    rw [List.getD_eq_getElem?_getD, List.getElem?_eq_getElem hi]
    rfl

/-- Claim C1: with compression level > 0, the array write path emits one run
per maximal span of equal consecutive values, each run recording the first
element's value, the run's start index and its length ([1,1,1,2,2,3] yields
runs (1,0,3),(2,3,2),(3,5,1)), and reading those runs back reconstructs
exactly the original n-element array; with compression level 0, exactly n
independent values are emitted, one per index, and reading is a 1:1
positional read reconstructing the array. -/
theorem claim_C1_array_compression (a : List Int) (clevel : Int)
    (hn : 1 ≤ a.length) (hc : 0 < clevel) :
    sqlWriteArrayContent clevel a = sqlWriteArrayCompress a ∧
    sqlWriteArrayCompress [1, 1, 1, 2, 2, 3] = [(1, 0, 3), (2, 3, 2), (3, 5, 1)] ∧
    sqlReadArrayCompress ((sqlWriteArrayContent clevel a).map runTag) a.length
      = (a.map some, false) ∧
    (sqlWriteArrayContent 0 a).length = a.length ∧
    (∀ i, i < a.length → (sqlWriteArrayContent 0 a).getD i (0, 0, 0) = (a.getD i 0, i, 1)) ∧
    sqlReadArrayUncompress ((sqlWriteArrayContent 0 a).map (fun r => r.1)) a.length = a := by
  have hcomp : sqlWriteArrayContent clevel a = sqlWriteArrayCompress a := by
    rw [sqlWriteArrayContent, if_pos hc]
  have hnc : sqlWriteArrayContent 0 a = sqlWriteArrayNoncompress a := by
    rw [sqlWriteArrayContent, if_neg (by omega)]
  refine ⟨hcomp, ?_, ?_, ?_, ?_, ?_⟩
  · simp [sqlWriteArrayCompress, sqlWriteArrayCompressGo, runEnd]
  · rw [hcomp]
    exact sqlReadArrayCompress_roundtrip a
  · rw [hnc]
    simp [sqlWriteArrayNoncompress]
  · intro i hi
    rw [hnc, sqlWriteArrayNoncompress, map_range_getD _ _ _ hi]
  · rw [hnc, sqlWriteArrayNoncompress, sqlReadArrayUncompress, List.map_map]
    have : ((fun r => r.1) ∘ fun indx => ((a.getD indx 0 : Int), indx, 1))
        = fun indx => a.getD indx 0 := rfl
    rw [this]
    have hv : ∀ indx, indx < a.length →
        ((List.range a.length).map (fun i => a.getD i 0)).getD indx 0 = a.getD indx 0 := by
      intro indx h
      exact map_range_getD _ _ _ h 0
    calc (List.range a.length).map
          (fun indx => ((List.range a.length).map (fun i => a.getD i 0)).getD indx 0)
        = (List.range a.length).map (fun indx => a.getD indx 0) := by
          apply List.map_congr_left
          intro i hi
          exact hv i (by simpa using hi)
      _ = a := map_range_getD_self a

/-- Witness for C1 at the spec's concrete array with compression level 1. -/
theorem claim_C1_array_compression_witness :
    1 ≤ ([1, 1, 1, 2, 2, 3] : List Int).length ∧ (0 : Int) < 1 ∧
    (sqlWriteArrayContent 1 [1, 1, 1, 2, 2, 3] = sqlWriteArrayCompress [1, 1, 1, 2, 2, 3] ∧
     sqlWriteArrayCompress [1, 1, 1, 2, 2, 3] = [(1, 0, 3), (2, 3, 2), (3, 5, 1)] ∧
     sqlReadArrayCompress ((sqlWriteArrayContent 1 [1, 1, 1, 2, 2, 3]).map runTag)
        ([1, 1, 1, 2, 2, 3] : List Int).length
       = (([1, 1, 1, 2, 2, 3] : List Int).map some, false) ∧
     (sqlWriteArrayContent 0 [1, 1, 1, 2, 2, 3]).length
       = ([1, 1, 1, 2, 2, 3] : List Int).length ∧
     (∀ i, i < ([1, 1, 1, 2, 2, 3] : List Int).length →
        (sqlWriteArrayContent 0 [1, 1, 1, 2, 2, 3]).getD i (0, 0, 0)
          = (([1, 1, 1, 2, 2, 3] : List Int).getD i 0, i, 1)) ∧
     sqlReadArrayUncompress ((sqlWriteArrayContent 0 [1, 1, 1, 2, 2, 3]).map (fun r => r.1))
        ([1, 1, 1, 2, 2, 3] : List Int).length = [1, 1, 1, 2, 2, 3]) :=
  ⟨by decide, by decide,
    claim_C1_array_compression [1, 1, 1, 2, 2, 3] 1 (by decide) (by decide)⟩

/-- Claim C4: each compressed run's index-range tag must start exactly at the
expected cursor index, satisfy first ≤ last, and end within array bounds; any
violation (e.g. a tag with last < first) sets the error flag and halts the
reconstruction with the remaining elements unassigned, while a valid run
replicates the run's first value across all indices of the run. -/
theorem claim_C4_array_run_validation (r : ArrRun) (rest : List ArrRun)
    (arrsize indx : Nat) (vname : List (Option Int))
    (hidx : indx < arrsize) (hlen : vname.length = arrsize) :
    ((r.first ≠ (indx : Int) ∨ r.last < r.first ∨ (arrsize : Int) ≤ r.last) →
      sqlReadArrayCompressGo (r :: rest) arrsize indx vname = (vname, true)) ∧
    (r.first = (indx : Int) → r.first ≤ r.last → r.last < (arrsize : Int) →
      sqlReadArrayCompressGo (r :: rest) arrsize indx vname
        = sqlReadArrayCompressGo rest arrsize (r.last.toNat + 1)
            (setRange vname r.value indx (r.last.toNat + 1 - indx)) ∧
      ∀ j, indx ≤ j → (j : Int) ≤ r.last →
        (setRange vname r.value indx (r.last.toNat + 1 - indx)).getD j none
          = some r.value) := by
  constructor
  · intro hv
    rw [sqlReadArrayCompressGo, dif_pos hidx]
    rw [dif_pos hv]
  · intro h1 h2 h3
    constructor
    · rw [sqlReadArrayCompressGo, dif_pos hidx]
      rw [dif_neg (by push_neg; exact ⟨h1, by omega, by omega⟩)]
    · intro j hj1 hj2
      rw [setRange_getD, if_pos ⟨hj1, by omega, by omega⟩]

/-- Witness for C4: after a valid run covering indices 0..1, the corrupted tag
[2..1] (last < first) halts reading of a 3-element array with the error flag
set and element 2 left unassigned. -/
theorem claim_C4_array_run_validation_witness :
    2 < 3 ∧ ([some 5, some 5, none] : List (Option Int)).length = 3 ∧
    sqlReadArrayCompressGo [{ first := 2, last := 1, value := 7 }] 3 2
        [some 5, some 5, none]
      = ([some 5, some 5, none], true) :=
  ⟨by decide, by decide,
    (claim_C4_array_run_validation { first := 2, last := 1, value := 7 } [] 3 2
      [some 5, some 5, none] (by decide) (by decide)).1 (by decide)⟩

/-! ## Value codec, read path, pool, and stack -/

/-- `TBufferSQL2::SqlWriteValue(value, tname)`: record the textual value under
its type marker on the current stack node (flattened here into the `fWritten`
log); always returns `kTRUE` in the source. -/
def sqlWriteValue (st : TBufferSQL2) (value : Int) (tname : Marker) : TBufferSQL2 :=
  { st with fWritten := st.fWritten ++ [{ marker := tname, value := value, valid := true }] }

/-- `SqlWriteBasic(Char_t)`: decimal text tagged `sqlio::Char`. -/
def sqlWriteBasicChar (st : TBufferSQL2) (value : Int) : TBufferSQL2 :=
  sqlWriteValue st value Marker.char

/-- `SqlWriteBasic(Int_t)`: decimal text tagged `sqlio::Int`. -/
def sqlWriteBasicInt (st : TBufferSQL2) (value : Int) : TBufferSQL2 :=
  sqlWriteValue st value Marker.int

/-- `SqlWriteBasic(Long64_t)`: decimal text tagged `sqlio::Long64`. -/
def sqlWriteBasicLong64 (st : TBufferSQL2) (value : Int) : TBufferSQL2 :=
  sqlWriteValue st value Marker.long64

/-- `SqlWriteBasic(Bool_t)`: the `sqlio::True`/`sqlio::False` token tagged
`sqlio::Bool` (tokens modelled as 1/0). -/
def sqlWriteBasicBool (st : TBufferSQL2) (value : Bool) : TBufferSQL2 :=
  sqlWriteValue st (if value then 1 else 0) Marker.bool

/-- `TBufferSQL2::SqlReadValue(tname)`: null when the sticky error flag is
already set (without touching the cursor); a missing cursor is a fatal error;
a type-marker mismatch (unless verification is ignored) sets the flag and
returns null without consuming the value; otherwise the value is returned and
the cursor advanced. -/
def sqlReadValue (st : TBufferSQL2) (tname : Marker) : Option Int × TBufferSQL2 :=
  if 0 < st.fErrorFlag then (none, st)
  else
    match st.fCurrentData with
    | none =>
      (none,
       { st with
          fErrorFlag := 1,
          fDiagnostics := st.fDiagnostics
            ++ ["SqlReadValue: No object data to read from"] })
    | some d =>
      if st.fIgnoreVerification = false ∧ d.verifyDataType tname = false then
        (none, { st with fErrorFlag := 1 })
      else
        (some d.getValue, { st with fCurrentData := some d.shiftToNextValue })

/-- `SqlReadBasic(Int_t&)`: read under marker `sqlio::Int`; a null result
leaves the output at its default 0. -/
def sqlReadBasicInt (st : TBufferSQL2) : Int × TBufferSQL2 :=
  match sqlReadValue st Marker.int with
  | (some v, st1) => (v, st1)
  | (none, st1) => (0, st1)

/-- `TBufferSQL2::SqlReadObject(obj, ...)`: returns the input pointer
unchanged when the sticky flag is set; an empty/invalid reference string is a
fatal error; a reference value 0 (on non-blob data or under an `ObjectPtr`
marker) yields the null instance with only a cursor shift; -1 keeps the input
instance (inline-class case, cursor shifted); a known positive id is resolved
through the identity map; blob data not tagged `ObjectRef` at this point is a
fatal error; otherwise control passes to `SqlReadObjectDirect` (whose
class-lookup, instance allocation and member streaming are driven by the
external reflection system; the handover is recorded in `fDirectReads`).
A missing cursor is dereferenced unconditionally by the source, which never
calls this without current data; modelled as the identity. -/
def sqlReadObject (st : TBufferSQL2) (obj : Int) : Int × TBufferSQL2 :=
  if 0 < st.fErrorFlag then (obj, st)
  else
    match st.fCurrentData with
    | none => (obj, st)
    | some d =>
      match d.items with
      | [] =>
        (obj,
         { st with
            fErrorFlag := 1,
            fDiagnostics := st.fDiagnostics
              ++ ["SqlReadObject: Invalid object reference value"] })
      | item :: _ =>
        if item.valid = false then
          (obj,
           { st with
              fErrorFlag := 1,
              fDiagnostics := st.fDiagnostics
                ++ ["SqlReadObject: Invalid object reference value"] })
        else
          let objid := item.value
          let condPtr : Bool := !d.isBlob || (item.marker == Marker.objectPtr)
          if condPtr ∧ objid = 0 then
            (0, { st with fCurrentData := some d.shiftToNextValue })
          else if condPtr ∧ objid = -1 then
            (obj, { st with fCurrentData := some d.shiftToNextValue })
          else if condPtr ∧ st.fFirstObjId ≤ objid ∧
              exMapGetValue st.fObjMap (objid - st.fFirstObjId) ≠ 0 then
            (exMapGetValue st.fObjMap (objid - st.fFirstObjId),
             { st with fCurrentData := some d.shiftToNextValue })
          else if d.isBlob = true ∧ item.marker ≠ Marker.objectRef then
            (obj,
             { st with
                fErrorFlag := 1,
                fDiagnostics := st.fDiagnostics
                  ++ ["SqlReadObject: Object reference or pointer is not found in blob data"] })
          else
            (obj,
             { st with
                fCurrentData := some d.shiftToNextValue,
                fDirectReads := st.fDirectReads ++ [objid] })

/-- `TBufferSQL2::PushStack`: create a new structure node as child of the
current frame and make it the top of the stack. -/
def pushStack (st : TBufferSQL2) (node : Nat) : TBufferSQL2 :=
  { st with fStk := node :: st.fStk }

/-- `TBufferSQL2::PopStack`: with no frame pushed, return null and change
nothing; otherwise drop the top frame and return the new top (its parent). -/
def popStack (st : TBufferSQL2) : Option Nat × TBufferSQL2 :=
  match st.fStk with
  | [] => (none, st)
  | _ :: rest => (rest.head?, { st with fStk := rest })

/-- `TBufferSQL2::SqlObjectData(objid, sqlinfo)`: per-class bulk fetch with
pool caching. `db d` models the external `TSQLFile::GetNormalClassDataAll`
succeeding for descriptor `d`; `rowdb d objid` models
`TSQLObjectDataPool::GetObjectRow` finding the row of `objid`.  Every issued
bulk fetch (successful or not) is appended to `fFetchLog` with the id range it
covers.  The blob-side per-object fetch has no pool and is folded into the
returned handle (descriptor, objid). -/
def sqlObjectData (db : Nat → Bool) (rowdb : Nat → Int → Bool)
    (st : TBufferSQL2) (objid : Int) (sqlinfo : TSQLClassInfo) :
    Option (Nat × Int) × TBufferSQL2 :=
  if sqlinfo.classTableExist then
    let pool0 := (st.fPoolsMap.find? (fun p => p.1 == sqlinfo.infoId)).map (fun p => p.2)
    let fetched : Option TSQLObjectDataPool × TBufferSQL2 :=
      match pool0 with
      | some p => (some p, st)
      | none =>
        if st.fFirstObjId ≤ st.fLastObjId then
          let st1 :=
            { st with
               fFetchLog := st.fFetchLog
                 ++ [(st.fFirstObjId, st.fLastObjId, sqlinfo.infoId)] }
          if db sqlinfo.infoId then
            (some { sqlinfo := sqlinfo.infoId },
             { st1 with fPoolsMap :=
                (sqlinfo.infoId, { sqlinfo := sqlinfo.infoId }) :: st1.fPoolsMap })
          else
            (none,
             { st1 with
                fDiagnostics := st1.fDiagnostics
                  ++ ["SqlObjectData: Cannot get data from table"] })
        else (none, st)
    match fetched.1 with
    | none => (none, fetched.2)
    | some pool =>
      if pool.sqlinfo ≠ sqlinfo.infoId then
        (none,
         { fetched.2 with
            fDiagnostics := fetched.2.fDiagnostics
              ++ ["SqlObjectData: Missmatch in pools map"] })
      else if rowdb sqlinfo.infoId objid then (some (sqlinfo.infoId, objid), fetched.2)
      else
        (none,
         { fetched.2 with
            fDiagnostics := fetched.2.fDiagnostics
              ++ ["SqlObjectData: Can not find row for objid"] })
  else
    (some (sqlinfo.infoId, objid), st)

/-- `TBufferSQL2::WriteFastArray(const Char_t*, Int_t)` outcome: either one
null-terminated string value written under `sqlio::CharStar`, or the fallback
into the generic per-element fast-array macro. -/
inductive CharArrayRep where
  | charStarValue (s : List Int)
  | fallbackPerElement
  deriving DecidableEq, Repr

/-- `strlen` over a null-terminated character buffer. -/
def strlenList (buf : List Int) : Nat :=
  (buf.takeWhile (fun ch => ch ≠ 0)).length

/-- `TBufferSQL2::WriteFastArray(const Char_t*, Int_t)`: with a non-empty
array, the chain-detection flag off and no zero byte in the array, the whole
array is written as one null-terminated string value tagged `sqlio::CharStar`;
otherwise the generic per-element macro handles it. -/
def writeFastArrayChar (fExpectedChain : Bool) (c : List Int) : CharArrayRep :=
  let usedefault := (c.length = 0) ∨ fExpectedChain = true
  let usedefault := usedefault ∨ (∃ ch ∈ c, ch = 0)
  if usedefault then CharArrayRep.fallbackPerElement
  else CharArrayRep.charStarValue c

/-- `TBufferSQL2::ReadFastArray(Char_t*, Int_t)`: when the current value is
blob data tagged `sqlio::CharStar` and `n > 0`, the stored string is copied
back: `size = strlen(buf)`, raised to `n` if smaller, then `memcpy(c, buf,
size)` (modelled as the first `size` bytes of the null-terminated buffer);
otherwise the generic per-element macro handles it (`none` here). -/
def readFastArrayChar (stored : CharArrayRep) (isBlob : Bool) (n : Nat) :
    Option (List Int) :=
  match stored with
  | CharArrayRep.charStarValue s =>
    if 0 < n ∧ isBlob = true then
      let buf := s ++ [0]
      let size := strlenList buf
      let size := if size < n then n else size
      some (buf.take size)
    else none
  | CharArrayRep.fallbackPerElement => none

/-! ## Claims on the object write/read path and the codec -/

/-- Claim C10: `SqlWriteObject` with a null class pointer treats the object as
null regardless of whether the object pointer itself is non-null: reference
value 0 is recorded on the current structure node, id 0 is returned, and the
identity map, id counter and streamer log are untouched. -/
theorem claim_C10_null_class_pointer (st : TBufferSQL2) (obj : Int) :
    sqlWriteObject st obj none
      = (0, { st with fNodes := st.fNodes ++ [SqlNode.objectPtr 0] }) := by
  simp [sqlWriteObject]

/-- Claim C5: writing a null object pointer records reference value 0 and
returns object id 0; reading a reference value 0 (under an `ObjectPtr` marker
or from non-blob data) yields the null instance, advances only the cursor and
touches neither the identity map nor `SqlReadObjectDirect`. -/
theorem claim_C5_null_handling (st : TBufferSQL2) (cl : Nat) (obj : Int)
    (d : TSQLObjectData) (item : DItem) (rest : List DItem)
    (hflag : st.fErrorFlag = 0)
    (hcur : st.fCurrentData = some d)
    (hitems : d.items = item :: rest)
    (hval : item.value = 0) (hvalid : item.valid = true)
    (hptr : d.isBlob = false ∨ item.marker = Marker.objectPtr) :
    sqlWriteObject st 0 (some cl)
      = (0, { st with fNodes := st.fNodes ++ [SqlNode.objectPtr 0] }) ∧
    sqlReadObject st obj
      = (0, { st with fCurrentData := some d.shiftToNextValue }) := by
  constructor
  · simp [sqlWriteObject]
  · obtain ⟨isB, items⟩ := d
    have hitems2 : items = item :: rest := hitems
    subst hitems2
    have hcond : (!isB || (item.marker == Marker.objectPtr)) = true := by
      rcases hptr with hb | hm
      · have hb2 : isB = false := hb
        simp [hb2]
      · have hm2 : item.marker = Marker.objectPtr := hm
        simp [hm2]
    simp [sqlReadObject, hflag, hcur, hvalid, hval, hcond,
      TSQLObjectData.shiftToNextValue]

/-- The per-class pool request never touches the sticky error flag (failures
are reported through the diagnostic channel and a null result). -/
theorem sqlObjectData_errorFlag (db : Nat → Bool) (rowdb : Nat → Int → Bool)
    (st : TBufferSQL2) (objid : Int) (sqlinfo : TSQLClassInfo) :
    (sqlObjectData db rowdb st objid sqlinfo).2.fErrorFlag = st.fErrorFlag := by
  unfold sqlObjectData
  split
  · cases hfind : st.fPoolsMap.find? (fun p => p.1 == sqlinfo.infoId) with
    | none =>
      simp only [hfind, Option.map_none']
      repeat' split
      all_goals rfl
    | some p =>
      simp only [hfind, Option.map_some']
      repeat' split
      all_goals rfl
  · rfl

/-- Claim C3: once the sticky error flag is set, every subsequent operation on
the engine yields only default/null results — `SqlReadValue` returns null
without consuming data or changing any state, basic reads yield zero,
`SqlReadObject` returns its input pointer unchanged — and no modelled
operation ever clears the flag for the remainder of the pass. -/
theorem claim_C3_sticky_error_flag (st : TBufferSQL2) (tname : Marker)
    (obj : Int) (node : Nat) (v : Int) (db : Nat → Bool) (rowdb : Nat → Int → Bool)
    (objid : Int) (sqlinfo : TSQLClassInfo)
    (hflag : 0 < st.fErrorFlag) :
    sqlReadValue st tname = (none, st) ∧
    sqlReadBasicInt st = (0, st) ∧
    sqlReadObject st obj = (obj, st) ∧
    0 < (sqlReadValue st tname).2.fErrorFlag ∧
    0 < (sqlReadBasicInt st).2.fErrorFlag ∧
    0 < (sqlReadObject st obj).2.fErrorFlag ∧
    0 < (popStack st).2.fErrorFlag ∧
    0 < (pushStack st node).fErrorFlag ∧
    0 < (sqlWriteValue st v tname).fErrorFlag ∧
    0 < (sqlObjectData db rowdb st objid sqlinfo).2.fErrorFlag := by
  have h1 : sqlReadValue st tname = (none, st) := by
    rw [sqlReadValue, if_pos hflag]
  have h1i : sqlReadValue st Marker.int = (none, st) := by
    rw [sqlReadValue, if_pos hflag]
  have h2 : sqlReadBasicInt st = (0, st) := by
    rw [sqlReadBasicInt, h1i]
  have h3 : sqlReadObject st obj = (obj, st) := by
    rw [sqlReadObject, if_pos hflag]
  have h4 : 0 < (popStack st).2.fErrorFlag := by
    rw [popStack]
    cases hstk : st.fStk with
    | nil => exact hflag
    | cons a rest => exact hflag
  refine ⟨h1, h2, h3, ?_, ?_, ?_, h4, hflag, hflag, ?_⟩
  · rw [h1]
    exact hflag
  · rw [h2]
    exact hflag
  · rw [h3]
    exact hflag
  · rw [sqlObjectData_errorFlag]
    exact hflag

/-- Witness state for C3: a fresh write pass whose error flag has been set. -/
def erroredState : TBufferSQL2 :=
  { sqlWriteAnyInit 1 with fErrorFlag := 1 }

/-- Witness for C3 on a concrete errored engine state. -/
theorem claim_C3_sticky_error_flag_witness :
    0 < erroredState.fErrorFlag ∧
    (sqlReadValue erroredState Marker.int = (none, erroredState) ∧
     sqlReadBasicInt erroredState = (0, erroredState) ∧
     sqlReadObject erroredState 5 = (5, erroredState) ∧
     0 < (sqlReadValue erroredState Marker.int).2.fErrorFlag ∧
     0 < (sqlReadBasicInt erroredState).2.fErrorFlag ∧
     0 < (sqlReadObject erroredState 5).2.fErrorFlag ∧
     0 < (popStack erroredState).2.fErrorFlag ∧
     0 < (pushStack erroredState 2).fErrorFlag ∧
     0 < (sqlWriteValue erroredState 9 Marker.int).fErrorFlag ∧
     0 < (sqlObjectData (fun _ => true) (fun _ _ => true) erroredState 1
        { infoId := 3, classTableExist := true }).2.fErrorFlag) :=
  ⟨by decide,
   claim_C3_sticky_error_flag erroredState Marker.int 5 2 9 (fun _ => true)
     (fun _ _ => true) 1 { infoId := 3, classTableExist := true } (by decide)⟩

/-- Claim C7: every primitive value written is tagged with the type marker of
its declared type, and on read the stored marker is verified against the
expected one before the value is consumed: a mismatch sets the error flag and
returns null with the cursor left in place, while a match returns the stored
value and advances the cursor. -/
theorem claim_C7_type_marker (st : TBufferSQL2) (d : TSQLObjectData)
    (item : DItem) (rest : List DItem) (tname : Marker) (v : Int) (b : Bool)
    (hflag : st.fErrorFlag = 0) (hver : st.fIgnoreVerification = false)
    (hcur : st.fCurrentData = some d) (hitems : d.items = item :: rest) :
    (sqlWriteBasicChar st v).fWritten
      = st.fWritten ++ [{ marker := Marker.char, value := v, valid := true }] ∧
    (sqlWriteBasicInt st v).fWritten
      = st.fWritten ++ [{ marker := Marker.int, value := v, valid := true }] ∧
    (sqlWriteBasicLong64 st v).fWritten
      = st.fWritten ++ [{ marker := Marker.long64, value := v, valid := true }] ∧
    (sqlWriteBasicBool st b).fWritten
      = st.fWritten
          ++ [{ marker := Marker.bool, value := if b then 1 else 0, valid := true }] ∧
    (item.marker ≠ tname →
      sqlReadValue st tname = (none, { st with fErrorFlag := 1 })) ∧
    (item.marker = tname →
      sqlReadValue st tname
        = (some item.value, { st with fCurrentData := some d.shiftToNextValue })) := by
  obtain ⟨isB, items⟩ := d
  have hitems2 : items = item :: rest := hitems
  subst hitems2
  refine ⟨rfl, rfl, rfl, rfl, ?_, ?_⟩
  · intro hne
    have hbeq : (item.marker == tname) = false := by
      simp [hne]
    simp [sqlReadValue, hflag, hver, hcur, TSQLObjectData.verifyDataType, hbeq]
  · intro heq
    have hbeq : (item.marker == tname) = true := by
      simp [heq]
    simp [sqlReadValue, hflag, hcur, TSQLObjectData.verifyDataType, hbeq,
      TSQLObjectData.getValue, TSQLObjectData.shiftToNextValue]

/-- Witness state for C7: a read pass positioned on a value tagged
`sqlio::Long` while the caller expects `sqlio::Int`. -/
def mismatchState : TBufferSQL2 :=
  { sqlWriteAnyInit 1 with
     fCurrentData := some
       { isBlob := true,
         items := [{ marker := Marker.long, value := 42, valid := true }] } }

/-- Witness for C7 at a concrete marker mismatch (stored Long, expected Int). -/
theorem claim_C7_type_marker_witness :
    mismatchState.fErrorFlag = 0 ∧ mismatchState.fIgnoreVerification = false ∧
    ((sqlWriteBasicInt mismatchState 7).fWritten
       = mismatchState.fWritten ++ [{ marker := Marker.int, value := 7, valid := true }] ∧
     sqlReadValue mismatchState Marker.int
       = (none, { mismatchState with fErrorFlag := 1 })) :=
  ⟨by decide, by decide,
   ⟨(claim_C7_type_marker mismatchState
      { isBlob := true, items := [{ marker := Marker.long, value := 42, valid := true }] }
      { marker := Marker.long, value := 42, valid := true } [] Marker.int 7 true
      (by decide) (by decide) (by rfl) (by rfl)).2.1,
    (claim_C7_type_marker mismatchState
      { isBlob := true, items := [{ marker := Marker.long, value := 42, valid := true }] }
      { marker := Marker.long, value := 42, valid := true } [] Marker.int 7 true
      (by decide) (by decide) (by rfl) (by rfl)).2.2.2.2.1 (by decide)⟩⟩

/-- Counterexample to C9 as stated: a pop with no matching push returns a null
result but does not set the sticky error flag and emits nothing on the
diagnostic channel. -/
theorem claim_C9_counterexample :
    (popStack (sqlWriteAnyInit 1)).1 = none ∧
    (popStack (sqlWriteAnyInit 1)).2.fErrorFlag = 0 ∧
    (popStack (sqlWriteAnyInit 1)).2.fDiagnostics = [] := by
  refine ⟨rfl, rfl, rfl⟩

/-- Claim C9 (amended): a pop of the structure stack attempted with no
matching push returns a null result to the caller and leaves the buffer
entirely unchanged — in particular it neither sets the sticky error flag nor
reports through the diagnostic channel. -/
theorem claim_C9_pop_underflow (st : TBufferSQL2) (hstk : st.fStk = []) :
    popStack st = (none, st) := by
  rw [popStack, hstk]

/-- Witness for amended C9 on a fresh pass with an empty structure stack. -/
theorem claim_C9_pop_underflow_witness :
    (sqlWriteAnyInit 1).fStk = [] ∧
    popStack (sqlWriteAnyInit 1) = (none, sqlWriteAnyInit 1) :=
  ⟨rfl, claim_C9_pop_underflow (sqlWriteAnyInit 1) rfl⟩

/-- Witness state for C5: a read pass positioned on a stored reference value 0
under the `ObjectPtr` marker. -/
def nullRefState : TBufferSQL2 :=
  { sqlWriteAnyInit 1 with
     fCurrentData := some
       { isBlob := true,
         items := [{ marker := Marker.objectPtr, value := 0, valid := true }] } }

/-- Witness for C5: writing a null pointer and reading back reference 0. -/
theorem claim_C5_null_handling_witness :
    nullRefState.fErrorFlag = 0 ∧
    (sqlWriteObject nullRefState 0 (some 7)
       = (0, { nullRefState with
                fNodes := nullRefState.fNodes ++ [SqlNode.objectPtr 0] }) ∧
     sqlReadObject nullRefState 5
       = (0, { nullRefState with
                fCurrentData := some
                  (TSQLObjectData.shiftToNextValue
                    { isBlob := true,
                      items := [{ marker := Marker.objectPtr, value := 0,
                                  valid := true }] }) })) :=
  ⟨by decide,
   claim_C5_null_handling nullRefState 7 5
     { isBlob := true,
       items := [{ marker := Marker.objectPtr, value := 0, valid := true }] }
     { marker := Marker.objectPtr, value := 0, valid := true } []
     (by decide) (by rfl) (by rfl) (by decide) (by decide) (Or.inr rfl)⟩

/-- A cached pool suppresses both the bulk fetch and any pool-map change. -/
theorem sqlObjectData_cached_no_fetch (db : Nat → Bool) (rowdb : Nat → Int → Bool)
    (st : TBufferSQL2) (objid : Int) (sqlinfo : TSQLClassInfo)
    (p : Nat × TSQLObjectDataPool)
    (hfind : st.fPoolsMap.find? (fun q => q.1 == sqlinfo.infoId) = some p) :
    (sqlObjectData db rowdb st objid sqlinfo).2.fFetchLog = st.fFetchLog ∧
    (sqlObjectData db rowdb st objid sqlinfo).2.fPoolsMap = st.fPoolsMap := by
  unfold sqlObjectData
  split
  · simp only [hfind, Option.map_some']
    repeat' split
    all_goals exact ⟨rfl, rfl⟩
  · exact ⟨rfl, rfl⟩

/-- An uncached pool with a valid id range and a successful bulk fetch logs
exactly one fetch covering [fFirstObjId, fLastObjId] and caches the pool under
the descriptor. -/
theorem sqlObjectData_first_fetch (db : Nat → Bool) (rowdb : Nat → Int → Bool)
    (st : TBufferSQL2) (objid : Int) (sqlinfo : TSQLClassInfo)
    (htable : sqlinfo.classTableExist = true)
    (hfind : st.fPoolsMap.find? (fun q => q.1 == sqlinfo.infoId) = none)
    (hrange : st.fFirstObjId ≤ st.fLastObjId)
    (hdb : db sqlinfo.infoId = true) :
    (sqlObjectData db rowdb st objid sqlinfo).2.fFetchLog
      = st.fFetchLog ++ [(st.fFirstObjId, st.fLastObjId, sqlinfo.infoId)] ∧
    (sqlObjectData db rowdb st objid sqlinfo).2.fPoolsMap
      = (sqlinfo.infoId, { sqlinfo := sqlinfo.infoId }) :: st.fPoolsMap := by
  unfold sqlObjectData
  simp only [htable, if_true, hfind, Option.map_none', hrange, if_pos, hdb]
  repeat' split
  all_goals exact ⟨rfl, rfl⟩

/-- Claim C6: within one pass the bulk class-table fetch is issued at most
once per descriptor: the first request fetches the full id range
[fFirstObjId, fLastObjId] and stores the pool keyed by the descriptor, the
next request for the same descriptor — for any other object id — reuses the
cached pool without a new fetch, and in general any state already holding a
pool for the descriptor never fetches it again. -/
theorem claim_C6_pool_single_fetch (db : Nat → Bool) (rowdb : Nat → Int → Bool)
    (st : TBufferSQL2) (objid1 objid2 : Int) (sqlinfo : TSQLClassInfo)
    (htable : sqlinfo.classTableExist = true)
    (hfind : st.fPoolsMap.find? (fun q => q.1 == sqlinfo.infoId) = none)
    (hrange : st.fFirstObjId ≤ st.fLastObjId)
    (hdb : db sqlinfo.infoId = true) :
    (sqlObjectData db rowdb st objid1 sqlinfo).2.fFetchLog
      = st.fFetchLog ++ [(st.fFirstObjId, st.fLastObjId, sqlinfo.infoId)] ∧
    (sqlObjectData db rowdb st objid1 sqlinfo).2.fPoolsMap
      = (sqlinfo.infoId, { sqlinfo := sqlinfo.infoId }) :: st.fPoolsMap ∧
    (sqlObjectData db rowdb (sqlObjectData db rowdb st objid1 sqlinfo).2 objid2
        sqlinfo).2.fFetchLog
      = (sqlObjectData db rowdb st objid1 sqlinfo).2.fFetchLog ∧
    (∀ st2 : TBufferSQL2, ∀ p : Nat × TSQLObjectDataPool,
      st2.fPoolsMap.find? (fun q => q.1 == sqlinfo.infoId) = some p →
      (sqlObjectData db rowdb st2 objid2 sqlinfo).2.fFetchLog = st2.fFetchLog) := by
  have hfirst := sqlObjectData_first_fetch db rowdb st objid1 sqlinfo
    htable hfind hrange hdb
  refine ⟨hfirst.1, hfirst.2, ?_, ?_⟩
  · have hfind2 : (sqlObjectData db rowdb st objid1 sqlinfo).2.fPoolsMap.find?
        (fun q => q.1 == sqlinfo.infoId)
        = some (sqlinfo.infoId, { sqlinfo := sqlinfo.infoId }) := by
      rw [hfirst.2]
      simp [List.find?]
    exact (sqlObjectData_cached_no_fetch db rowdb _ objid2 sqlinfo _ hfind2).1
  · intro st2 p hp
    exact (sqlObjectData_cached_no_fetch db rowdb st2 objid2 sqlinfo p hp).1

/-- Witness for C6 on a fresh read pass over the id range [1,1] with a
descriptor whose class table exists. -/
theorem claim_C6_pool_single_fetch_witness :
    ({ infoId := 3, classTableExist := true } : TSQLClassInfo).classTableExist = true ∧
    (sqlWriteAnyInit 1).fPoolsMap.find? (fun q => q.1 == 3) = none ∧
    (sqlWriteAnyInit 1).fFirstObjId ≤ (sqlWriteAnyInit 1).fLastObjId ∧
    ((sqlObjectData (fun _ => true) (fun _ _ => true) (sqlWriteAnyInit 1) 1
        { infoId := 3, classTableExist := true }).2.fFetchLog
      = (sqlWriteAnyInit 1).fFetchLog ++ [((sqlWriteAnyInit 1).fFirstObjId,
          (sqlWriteAnyInit 1).fLastObjId, 3)] ∧
     (sqlObjectData (fun _ => true) (fun _ _ => true) (sqlWriteAnyInit 1) 1
        { infoId := 3, classTableExist := true }).2.fPoolsMap
      = (3, { sqlinfo := 3 }) :: (sqlWriteAnyInit 1).fPoolsMap ∧
     (sqlObjectData (fun _ => true) (fun _ _ => true)
        (sqlObjectData (fun _ => true) (fun _ _ => true) (sqlWriteAnyInit 1) 1
          { infoId := 3, classTableExist := true }).2 2
        { infoId := 3, classTableExist := true }).2.fFetchLog
      = (sqlObjectData (fun _ => true) (fun _ _ => true) (sqlWriteAnyInit 1) 1
          { infoId := 3, classTableExist := true }).2.fFetchLog ∧
     (∀ st2 : TBufferSQL2, ∀ p : Nat × TSQLObjectDataPool,
       st2.fPoolsMap.find? (fun q => q.1 == 3) = some p →
       (sqlObjectData (fun _ => true) (fun _ _ => true) st2 2
         { infoId := 3, classTableExist := true }).2.fFetchLog = st2.fFetchLog)) :=
  ⟨by decide, by decide, by decide,
   claim_C6_pool_single_fetch (fun _ => true) (fun _ _ => true) (sqlWriteAnyInit 1)
     1 2 { infoId := 3, classTableExist := true } (by decide) (by decide)
     (by decide) (by decide)⟩

theorem takeWhile_append_zero (c : List Int) (h2 : ∀ x ∈ c, x ≠ 0) :
    (c ++ [0]).takeWhile (fun ch => ch ≠ 0) = c := by
  induction c with
  | nil => simp
  | cons x xs ih =>
    have hx : x ≠ 0 := h2 x (by simp)
    simp only [List.cons_append, List.takeWhile_cons]
    simpa [hx] using ih (fun y hy => h2 y (List.mem_cons_of_mem x hy))

/-- Claim C8: a non-empty character array without zero bytes, written while
the expected-chain flag is off, is persisted as a single null-terminated
string value (`sqlio::CharStar`), and reading n chars back from that value
reconstructs exactly the original characters; an array with a zero byte, or
one written while the chain flag is set, falls back to per-element handling. -/
theorem claim_C8_char_array (c : List Int) (h1 : 0 < c.length)
    (h2 : ∀ x ∈ c, x ≠ 0) :
    writeFastArrayChar false c = CharArrayRep.charStarValue c ∧
    readFastArrayChar (CharArrayRep.charStarValue c) true c.length = some c ∧
    (∀ c2 : List Int, ∀ chain : Bool, (∃ x ∈ c2, x = 0) →
       writeFastArrayChar chain c2 = CharArrayRep.fallbackPerElement) ∧
    (∀ c2 : List Int, writeFastArrayChar true c2 = CharArrayRep.fallbackPerElement) := by
  have hstr : strlenList (c ++ [0]) = c.length := by
    unfold strlenList
    rw [takeWhile_append_zero c h2]
  refine ⟨?_, ?_, ?_, ?_⟩
  · simp only [writeFastArrayChar]
    rw [if_neg ?_]
    push_neg
    refine ⟨⟨by omega, ?_⟩, fun x hx => h2 x hx⟩
    simp
  · simp only [readFastArrayChar]
    rw [if_pos ⟨h1, by simp⟩, hstr]
    rw [if_neg (lt_irrefl c.length)]
    rw [show c.length = (c : List Int).length from rfl, List.take_left]
  · intro c2 chain hzero
    simp only [writeFastArrayChar]
    rw [if_pos (Or.inr hzero)]
  · intro c2
    simp only [writeFastArrayChar]
    rw [if_pos (Or.inl (Or.inr (by simp)))]

/-- Witness for C8 at a concrete two-character array. -/
theorem claim_C8_char_array_witness :
    0 < ([65, 66] : List Int).length ∧ (∀ x ∈ ([65, 66] : List Int), x ≠ 0) ∧
    (writeFastArrayChar false [65, 66] = CharArrayRep.charStarValue [65, 66] ∧
     readFastArrayChar (CharArrayRep.charStarValue [65, 66]) true
        ([65, 66] : List Int).length = some [65, 66] ∧
     (∀ c2 : List Int, ∀ chain : Bool, (∃ x ∈ c2, x = 0) →
        writeFastArrayChar chain c2 = CharArrayRep.fallbackPerElement) ∧
     (∀ c2 : List Int, writeFastArrayChar true c2 = CharArrayRep.fallbackPerElement)) :=
  ⟨by decide, by decide, claim_C8_char_array [65, 66] (by decide) (by decide)⟩

/-- Under the identity-map invariant, two distinct addresses with registered
ids hold distinct stored values. -/
theorem exMapGetValue_inj (st : TBufferSQL2) (hinv : objMapInv st) (k1 k2 : Int)
    (hk : k1 ≠ k2) (hp1 : 0 < exMapGetValue st.fObjMap k1)
    (hp2 : 0 < exMapGetValue st.fObjMap k2) :
    exMapGetValue st.fObjMap k1 ≠ exMapGetValue st.fObjMap k2 := by
  obtain ⟨_, _, _, hpair⟩ := hinv
  have m1 := exMapGetValue_mem st.fObjMap k1 (by omega)
  have m2 := exMapGetValue_mem st.fObjMap k2 (by omega)
  have hsym : Symmetric (fun p q : Int × Int => p.1 ≠ q.1 ∧ p.2 ≠ q.2) := by
    intro p q hpq
    exact ⟨hpq.1.symm, hpq.2.symm⟩
  have hne : ((k1, exMapGetValue st.fObjMap k1) : Int × Int)
      ≠ (k2, exMapGetValue st.fObjMap k2) := by
    intro hcontra
    exact hk (congrArg Prod.fst hcontra)
  exact (hpair.forall hsym m1 m2 hne).2

/-- Claim C2: within one pass, writing two distinct non-null objects yields
distinct object ids, and writing the first address again — even after the
intervening write — returns the id assigned the first time while emitting only
a pointer (back-reference) node: no new Object node, no identity-map change and
no describe-callback invocation. -/
theorem claim_C2_identity_uniqueness (st : TBufferSQL2) (obj1 obj2 : Int)
    (c1 c2 c3 : Nat) (hinv : objMapInv st)
    (h1 : obj1 ≠ 0) (h2 : obj2 ≠ 0) (hne : obj1 ≠ obj2) :
    (sqlWriteObject st obj1 (some c1)).1
      ≠ (sqlWriteObject (sqlWriteObject st obj1 (some c1)).2 obj2 (some c2)).1 ∧
    (sqlWriteObject
        (sqlWriteObject (sqlWriteObject st obj1 (some c1)).2 obj2 (some c2)).2
        obj1 (some c3)).1
      = (sqlWriteObject st obj1 (some c1)).1 ∧
    (sqlWriteObject
        (sqlWriteObject (sqlWriteObject st obj1 (some c1)).2 obj2 (some c2)).2
        obj1 (some c3)).2
      = { (sqlWriteObject (sqlWriteObject st obj1 (some c1)).2 obj2 (some c2)).2 with
           fNodes := (sqlWriteObject (sqlWriteObject st obj1 (some c1)).2 obj2
               (some c2)).2.fNodes
             ++ [SqlNode.objectPtr (sqlWriteObject st obj1 (some c1)).1] } := by
  obtain ⟨inv1, hB1, hC1, hD1, hE1, hF1, hG1⟩ :=
    sqlWriteObject_spec st hinv obj1 c1 h1
  obtain ⟨inv2, hB2, hC2, hD2, hE2, hF2, hG2⟩ :=
    sqlWriteObject_spec (sqlWriteObject st obj1 (some c1)).2 inv1 obj2 c2 h2
  have hfirst0 : 0 ≤ st.fFirstObjId := hinv.1
  -- the address written first still resolves to its id after the second write
  have hL1 : exMapGetValue
      (sqlWriteObject (sqlWriteObject st obj1 (some c1)).2 obj2 (some c2)).2.fObjMap obj1
      = (sqlWriteObject st obj1 (some c1)).1 - st.fFirstObjId + 1 := by
    rw [hF2 obj1 hne, hE1]
  have hL2 : exMapGetValue
      (sqlWriteObject (sqlWriteObject st obj1 (some c1)).2 obj2 (some c2)).2.fObjMap obj2
      = (sqlWriteObject (sqlWriteObject st obj1 (some c1)).2 obj2 (some c2)).1
        - st.fFirstObjId + 1 := by
    rw [hE2, hD1]
  have hpos1 : 0 < exMapGetValue
      (sqlWriteObject (sqlWriteObject st obj1 (some c1)).2 obj2 (some c2)).2.fObjMap obj1 := by
    rw [hL1]
    omega
  have hpos2 : 0 < exMapGetValue
      (sqlWriteObject (sqlWriteObject st obj1 (some c1)).2 obj2 (some c2)).2.fObjMap obj2 := by
    rw [hL2]
    rw [hD1] at hB2
    omega
  obtain ⟨inv3, hB3, hC3, hD3, hE3, hF3, hG3⟩ :=
    sqlWriteObject_spec
      (sqlWriteObject (sqlWriteObject st obj1 (some c1)).2 obj2 (some c2)).2
      inv2 obj1 c3 h1
  obtain ⟨hg1, hg2⟩ := hG3 hpos1
  have hid3 : (sqlWriteObject
      (sqlWriteObject (sqlWriteObject st obj1 (some c1)).2 obj2 (some c2)).2
      obj1 (some c3)).1 = (sqlWriteObject st obj1 (some c1)).1 := by
    rw [hg1, hD2, hD1, hL1]
    omega
  refine ⟨?_, hid3, ?_⟩
  · intro heq
    have hvals := exMapGetValue_inj _ inv2 obj1 obj2 hne hpos1 hpos2
    rw [hL1, hL2, heq] at hvals
    exact hvals rfl
  · rw [hg2, hid3]

/-- Witness for C2: two distinct addresses written on a fresh pass with base
id 1, then the first address written again. -/
theorem claim_C2_identity_uniqueness_witness :
    objMapInv (sqlWriteAnyInit 1) ∧ (10 : Int) ≠ 0 ∧ (20 : Int) ≠ 0 ∧
    (10 : Int) ≠ 20 ∧
    ((sqlWriteObject (sqlWriteAnyInit 1) 10 (some 5)).1
       ≠ (sqlWriteObject (sqlWriteObject (sqlWriteAnyInit 1) 10 (some 5)).2 20
           (some 5)).1 ∧
     (sqlWriteObject
         (sqlWriteObject (sqlWriteObject (sqlWriteAnyInit 1) 10 (some 5)).2 20
           (some 5)).2 10 (some 5)).1
       = (sqlWriteObject (sqlWriteAnyInit 1) 10 (some 5)).1 ∧
     (sqlWriteObject
         (sqlWriteObject (sqlWriteObject (sqlWriteAnyInit 1) 10 (some 5)).2 20
           (some 5)).2 10 (some 5)).2
       = { (sqlWriteObject (sqlWriteObject (sqlWriteAnyInit 1) 10 (some 5)).2 20
             (some 5)).2 with
            fNodes := (sqlWriteObject (sqlWriteObject (sqlWriteAnyInit 1) 10
                (some 5)).2 20 (some 5)).2.fNodes
              ++ [SqlNode.objectPtr (sqlWriteObject (sqlWriteAnyInit 1) 10
                  (some 5)).1] }) :=
  ⟨⟨by decide, by decide, by simp [sqlWriteAnyInit], List.Pairwise.nil⟩,
   by decide, by decide, by decide,
   claim_C2_identity_uniqueness (sqlWriteAnyInit 1) 10 20 5 5 5
     ⟨by decide, by decide, by simp [sqlWriteAnyInit], List.Pairwise.nil⟩
     (by decide) (by decide) (by decide)⟩
